import Mathlib

/-!
Verification of the process-ledger server (src/api/server.js) of the
painel-jmd-advocacia repository, as a shallow embedding in Lean 4.

Modelling conventions:
* a database is a `List Process` (one row per process);
* JSON string fields that may be null/absent are `Option String`;
  JavaScript truthiness of such a value (`if (x)`) is the `truthy` test
  (absent/null and the empty string are falsy);
* clock reads (`Date.now()`, `CURRENT_TIMESTAMP`) are an explicit `now : Nat`
  argument threaded into every mutating operation;
* each HTTP handler becomes a function returning `Except ApiError`, where
  `badRequest` is a 400 response and `notFound` a 404 response; a successful
  handler returns the new database together with the JSON body it sends back
  (the `RETURNING *` row);
* a SQL `UPDATE ... WHERE id = $n` is a map over the rows touching exactly
  the rows whose `id` matches.
-/

namespace JMD

/-- JavaScript truthiness of an optional string: `null`/absent and `""` are
falsy, every other string is truthy. -/
def truthy : Option String → Bool
  | none => false
  | some s => s != ""

/-- A movement (`movimentacao`) as stored in the JSONB column.  `descricao`
and `concluido` are `Option`s because the update handler can assign
`undefined` to them, which drops the key from the persisted JSON object. -/
structure Movement where
  id : Nat
  descricao : Option String
  timestamp : Nat
  concluido : Option Bool
  prazo_fatal : Option String
deriving DecidableEq, Repr

/-- A link attached to a process. -/
structure Link where
  id : Nat
  url : String
  descricao : String
deriving DecidableEq, Repr

/-- One row of the `processes` table (src/api/server.js, CREATE TABLE). -/
structure Process where
  id : Nat
  numero : String
  cliente : String
  status : String
  movimentacoes : List Movement
  last_updated : Nat
  proxima_audiencia : Option String
  links : List Link
  area_direito : Option String
  tribunal : Option String
  vara : Option String
  modo_audiencia : Option String
  link_audiencia : Option String
deriving DecidableEq, Repr

/-- Outcome of a handler that did not return a row. -/
inductive ApiError where
  | badRequest : ApiError
  | notFound : ApiError
deriving DecidableEq, Repr

/-- `SELECT * FROM processes WHERE id = $1` (first matching row). -/
def dbFind (db : List Process) (pid : Nat) : Option Process :=
  db.find? (fun p => p.id == pid)

/-- `UPDATE processes SET ... WHERE id = $n`: apply `f` to every row whose
`id` is `pid`. -/
def dbUpdate (db : List Process) (pid : Nat) (f : Process → Process) : List Process :=
  db.map (fun p => if p.id = pid then f p else p)

/-- The `novaMovimentacao` object built by the POST movimentacoes handler
(src/api/server.js lines 161-167): `id: Date.now()`, the given description,
`timestamp` = now, `concluido: false`, and `prazo_fatal: prazo_fatal || null`. -/
def novaMovimentacao (now : Nat) (descricao prazo_fatal : Option String) : Movement :=
  { id := now
    descricao := descricao
    timestamp := now
    concluido := some false
    prazo_fatal := if truthy prazo_fatal then prazo_fatal else none }

/-- The row mutation performed by the POST movimentacoes handler's single
UPDATE statement: append the new movement, refresh `last_updated`, and set
`status = 'Pendente de manifestação'` exactly when `prazo_fatal` is truthy. -/
def appendUpd (now : Nat) (descricao prazo_fatal : Option String) (q : Process) : Process :=
  { q with
    movimentacoes := q.movimentacoes ++ [novaMovimentacao now descricao prazo_fatal]
    last_updated := now
    status := if truthy prazo_fatal then "Pendente de manifestação" else q.status }

/-- POST `/api/processes/:id/movimentacoes` (src/api/server.js lines 153-189).
Rejects a falsy `descricao` with 400; otherwise issues one UPDATE that appends
the movement (and conditionally sets the status) and 404s when no row
matched. -/
def appendMovement (db : List Process) (pid now : Nat)
    (descricao prazo_fatal : Option String) : Except ApiError (List Process × Process) :=
  if truthy descricao = false then .error .badRequest
  else
    match dbFind db pid with
    | none => .error .notFound
    | some p =>
        .ok (dbUpdate db pid (appendUpd now descricao prazo_fatal),
             appendUpd now descricao prazo_fatal p)

/-- The request body of POST `/api/processes`; every field may be absent. -/
structure CreateInput where
  numero : Option String
  cliente : Option String
  area_direito : Option String
  tribunal : Option String
  vara : Option String
  proxima_audiencia : Option String
  modo_audiencia : Option String
  link_audiencia : Option String
deriving DecidableEq, Repr

/-- POST `/api/processes` (src/api/server.js lines 115-130).  Falsy `numero`
or `cliente` is a 400 before any insert; otherwise the INSERT leaves
`status`, `movimentacoes` and `links` to their column defaults
(`'Distribuído'`, `'[]'`, `'[]'`) and stores `proxima_audiencia || null`.
`newId` is the fresh SERIAL key. -/
def createProcess (db : List Process) (newId now : Nat) (inp : CreateInput) :
    Except ApiError (List Process × Process) :=
  if truthy inp.numero = false ∨ truthy inp.cliente = false then .error .badRequest
  else
    let p : Process :=
      { id := newId
        numero := inp.numero.getD ""
        cliente := inp.cliente.getD ""
        status := "Distribuído"
        movimentacoes := []
        last_updated := now
        proxima_audiencia := if truthy inp.proxima_audiencia then inp.proxima_audiencia else none
        links := []
        area_direito := inp.area_direito
        tribunal := inp.tribunal
        vara := inp.vara
        modo_audiencia := inp.modo_audiencia
        link_audiencia := inp.link_audiencia }
    .ok (db ++ [p], p)

/-- In-place field assignment `movimentacoes[movIndex].descricao = descricao;
movimentacoes[movIndex].concluido = concluido` at index `i`: the assigned
values are the raw request fields, so an absent field (`none`) erases the
stored key when the array is re-serialised. -/
def setMovAt : List Movement → Nat → Option String → Option Bool → List Movement
  | [], _, _, _ => []
  | m :: ms, 0, d, c => { m with descricao := d, concluido := c } :: ms
  | m :: ms, i + 1, d, c => m :: setMovAt ms i d c

/-- PUT `/api/processes/:id/movimentacoes/:movId` (src/api/server.js lines
192-218): read the process's movement array, locate the movement by id
(`findIndex`), assign `descricao`/`concluido` from the request body, and
write the whole array back while refreshing `last_updated`. -/
def updateMovement (db : List Process) (pid movId now : Nat)
    (descricao : Option String) (concluido : Option Bool) :
    Except ApiError (List Process × Process) :=
  match dbFind db pid with
  | none => .error .notFound
  | some p =>
      match p.movimentacoes.findIdx? (fun m => m.id == movId) with
      | none => .error .notFound
      | some i =>
          let movs := setMovAt p.movimentacoes i descricao concluido
          let upd : Process → Process :=
            fun q => { q with movimentacoes := movs, last_updated := now }
          .ok (dbUpdate db pid upd, upd p)

/-- The row mutation of the DELETE link handler: store the filtered link
list (all links whose id differs from `linkId`) and refresh `last_updated`. -/
def removeLinkUpd (now linkId : Nat) (ls : List Link) (q : Process) : Process :=
  { q with links := ls.filter (fun l => l.id != linkId), last_updated := now }

/-- DELETE `/api/processes/:id/links/:linkId` (src/api/server.js lines
262-279): select the current links (404 only when the process is missing),
filter out the link with the given id, and write the filtered list back.
There is no check that the link id was present. -/
def removeLink (db : List Process) (pid linkId now : Nat) :
    Except ApiError (List Process × Process) :=
  match dbFind db pid with
  | none => .error .notFound
  | some p =>
      .ok (dbUpdate db pid (removeLinkUpd now linkId p.links),
           removeLinkUpd now linkId p.links p)

/-- Whether `pat` occurs at the start of `l`. -/
def startsWithChars : List Char → List Char → Bool
  | [], _ => true
  | _ :: _, [] => false
  | a :: as, b :: bs => a == b && startsWithChars as bs

/-- Whether `pat` occurs contiguously anywhere in the second list. -/
def containsChars (pat : List Char) : List Char → Bool
  | [] => pat.isEmpty
  | b :: bs => startsWithChars pat (b :: bs) || containsChars pat bs

/-- Lower-case a character sequence. -/
def lowerChars (l : List Char) : List Char :=
  l.map Char.toLower

/-- SQL `hay ILIKE '%pat%'`: case-insensitive containment.  (The `%`/`_`
pattern metacharacters are not modelled; for a metacharacter-free pattern
this is exactly what ILIKE computes.) -/
def ilikeContains (hay pat : String) : Bool :=
  containsChars (lowerChars pat.toList) (lowerChars hay.toList)

/-- Splitting on `','`, accumulating the current piece in reverse. -/
def splitCommaAux : List Char → List Char → List String
  | [], acc => [String.mk acc.reverse]
  | c :: cs, acc =>
      if c = ',' then String.mk acc.reverse :: splitCommaAux cs []
      else splitCommaAux cs (c :: acc)

/-- JavaScript `s.split(',')`. -/
def splitComma (s : String) : List String :=
  splitCommaAux s.toList []

/-- The query-string filter of GET `/api/processes`. -/
structure QueryFilter where
  tribunal : Option String
  vara : Option String
  search : Option String
deriving DecidableEq, Repr

/-- The WHERE clause built by GET `/api/processes` (src/api/server.js lines
77-102), evaluated on one row:
* when `tribunal` is truthy and not the literal `'Todos'`, the handler
  splits it on `','` and requires `tribunal IN (...)` (exact match against
  one of the pieces; a NULL column never matches);
* when `vara` is truthy it requires `vara = $n` (exact equality);
* when `search` is truthy it requires
  `numero ILIKE '%s%' OR cliente ILIKE '%s%'`. -/
def rowMatches (f : QueryFilter) (p : Process) : Bool :=
  (match f.tribunal with
   | none => true
   | some t =>
       if t != "" && t != "Todos" then
         (splitComma t).any (fun s => p.tribunal == some s)
       else true)
  &&
  (match f.vara with
   | none => true
   | some v => if v != "" then p.vara == some v else true)
  &&
  (match f.search with
   | none => true
   | some s => if s != "" then ilikeContains p.numero s || ilikeContains p.cliente s else true)

/-- The ordering used by `ORDER BY last_updated DESC`. -/
def luGE (a b : Process) : Prop := b.last_updated ≤ a.last_updated

instance : DecidableRel luGE := fun a b => Nat.decLe b.last_updated a.last_updated

instance : IsTotal Process luGE := ⟨fun a b => Nat.le_total b.last_updated a.last_updated⟩

instance : IsTrans Process luGE := ⟨fun _ _ _ h1 h2 => Nat.le_trans h2 h1⟩

/-- GET `/api/processes` (src/api/server.js lines 75-112): the rows
satisfying the WHERE clause, ordered by `last_updated` descending. -/
def listProcesses (db : List Process) (f : QueryFilter) : List Process :=
  List.insertionSort luGE (db.filter (fun p => rowMatches f p))

/-- One row of the hearing list of GET `/api/calendario`. -/
structure AudienciaRow where
  numero : String
  cliente : String
  date : String
deriving DecidableEq, Repr

/-- One row of the deadline list of GET `/api/calendario`: the parent
process's `numero`/`cliente` plus the movement's `prazo_fatal` (as `date`)
and `descricao`, read back out of the JSONB record (missing keys are NULL). -/
structure PrazoRow where
  numero : String
  cliente : String
  date : Option String
  descricao : Option String
deriving DecidableEq, Repr

/-- GET `/api/calendario` (src/api/server.js lines 307-324).  List (a):
every process with a non-null `proxima_audiencia`.  List (b): every
movement, across all processes, with `prazo_fatal IS NOT NULL AND
concluido = false`; a movement whose `concluido` key is missing reads as
SQL NULL, and `NULL = false` does not pass the WHERE clause. -/
def calendarFeed (db : List Process) : List AudienciaRow × List PrazoRow :=
  (db.filterMap (fun p =>
      p.proxima_audiencia.map (fun d => ⟨p.numero, p.cliente, d⟩)),
   db.flatMap (fun p =>
      (p.movimentacoes.filter
          (fun m => m.prazo_fatal.isSome && m.concluido == some false)).map
        (fun m => ⟨p.numero, p.cliente, m.prazo_fatal, m.descricao⟩)))

/-- The office-wide settings record. -/
structure Settings where
  logo_url : String
  custom_menu_links : List String
deriving DecidableEq, Repr

/-- A partial settings update; `none` means the field is absent from the
input. -/
structure SettingsPatch where
  logo_url : Option String
  custom_menu_links : Option (List String)
deriving DecidableEq, Repr

/-- The default settings returned before any write. -/
def defaultSettings : Settings :=
  { logo_url := "", custom_menu_links := [] }

/-- Modelled from the spec: the settings-store code is not in the
repository's sources (only the spec, sections 3 and 4.3, describes it).
`getSettings` returns the stored record, or the default
(`logo_url=""`, `custom_menu_links=[]`) if none was ever written. -/
def getSettings : Option Settings → Settings
  | none => defaultSettings
  | some s => s

/-- Modelled from the spec: `saveSettings(partial)` merges only the provided
fields into the existing record (fields absent from the input are left
unchanged), then persists; the first-ever write creates the record. -/
def saveSettings (st : Option Settings) (patch : SettingsPatch) : Option Settings :=
  let cur := getSettings st
  some { logo_url := patch.logo_url.getD cur.logo_url
         custom_menu_links := patch.custom_menu_links.getD cur.custom_menu_links }

/-!  ## Helper lemmas  -/

/-- `find?` commutes with a map that does not change the predicate's verdict. -/
theorem find?_map_invariant (g : Process → Process) (pred : Process → Bool)
    (hg : ∀ p, pred (g p) = pred p) (l : List Process) :
    (l.map g).find? pred = (l.find? pred).map g := by
  induction l with
  | nil => rfl
  | cons a l ih =>
      simp only [List.map_cons, List.find?, hg a]
      cases h : pred a <;> simp [ih]

/-- Looking up `pid` after an `UPDATE ... WHERE id = pid` by an id-preserving
row mutation returns the mutated row. -/
theorem dbFind_dbUpdate (db : List Process) (pid : Nat) (f : Process → Process)
    (hf : ∀ q, (f q).id = q.id) (p : Process) (hfind : dbFind db pid = some p) :
    dbFind (dbUpdate db pid f) pid = some (f p) := by
  have hg : ∀ q : Process, ((if q.id = pid then f q else q).id == pid) = (q.id == pid) := by
    intro q
    by_cases h : q.id = pid <;> simp [h, hf q]
  have hp : p.id = pid := by
    have := List.find?_some hfind
    simpa using this
  unfold dbFind dbUpdate at *
  rw [find?_map_invariant _ _ hg, hfind]
  simp [hp]

/-- A concrete freshly created process used to instantiate the theorems. -/
def exProcess : Process :=
  { id := 1
    numero := "0001234-56.2025"
    cliente := "Acme"
    status := "Distribuído"
    movimentacoes := []
    last_updated := 10
    proxima_audiencia := none
    links := []
    area_direito := none
    tribunal := none
    vara := none
    modo_audiencia := none
    link_audiencia := none }

/-!  ## Claims  -/

/-- C1 as stated is false: `prazo_fatal = ""` is non-null, but the handler
tests JavaScript truthiness (`if (prazo_fatal)`), so the empty string
neither sets `status = "Pendente de manifestação"` nor is stored (the
movement stores `prazo_fatal || null`, i.e. null). -/
theorem appendMovement_nonnull_counterexample :
    ∃ db2 ret,
      appendMovement [exProcess] 1 20 (some "Juntada") (some "") = .ok (db2, ret)
        ∧ ret.status ≠ "Pendente de manifestação" := by
  refine ⟨_, _, rfl, ?_⟩
  decide

/-- C1 (amended): for every `appendMovement` call on an existing process with
a non-empty `descricao` and a truthy (non-null and non-empty) `prazo_fatal`,
the returned process has `status = "Pendente de manifestação"`, the new
movement sits at the end of its movement list, and the post-state row for
that id equals the returned process — the status change and the append come
from the one UPDATE statement, so no observable state has one without the
other. -/
theorem appendMovement_fatal_deadline (db : List Process) (pid now : Nat)
    (d pf : Option String) (p : Process)
    (hd : truthy d = true) (hpf : truthy pf = true)
    (hfind : dbFind db pid = some p) :
    ∃ db2 ret, appendMovement db pid now d pf = .ok (db2, ret)
      ∧ ret.status = "Pendente de manifestação"
      ∧ ret.movimentacoes = p.movimentacoes ++ [novaMovimentacao now d pf]
      ∧ dbFind db2 pid = some ret := by
  have h1 : appendMovement db pid now d pf
      = .ok (dbUpdate db pid (appendUpd now d pf), appendUpd now d pf p) := by
    unfold appendMovement
    rw [hd, hfind]
    rfl
  refine ⟨_, _, h1, ?_, rfl, ?_⟩
  · simp [appendUpd, hpf]
  · exact dbFind_dbUpdate db pid (appendUpd now d pf) (fun q => rfl) p hfind

/-- Witness for C1 (amended) at a concrete input. -/
theorem appendMovement_fatal_deadline_witness :
    ∃ db2 ret,
      appendMovement [exProcess] 1 20 (some "Juntada") (some "2025-01-10") = .ok (db2, ret)
        ∧ ret.status = "Pendente de manifestação"
        ∧ ret.movimentacoes
            = exProcess.movimentacoes ++ [novaMovimentacao 20 (some "Juntada") (some "2025-01-10")]
        ∧ dbFind db2 1 = some ret :=
  appendMovement_fatal_deadline [exProcess] 1 20 (some "Juntada") (some "2025-01-10")
    exProcess (by decide) (by decide) (by decide)

/-- C2: an `appendMovement` call with a null (absent) `prazo_fatal` on an
existing process leaves `status` at its pre-call value; the updated row is
the old one with only the movement list extended and `last_updated`
refreshed. -/
theorem appendMovement_no_deadline (db : List Process) (pid now : Nat)
    (d : Option String) (p : Process)
    (hd : truthy d = true) (hfind : dbFind db pid = some p) :
    ∃ db2 ret, appendMovement db pid now d none = .ok (db2, ret)
      ∧ ret.status = p.status
      ∧ ret = { p with
                movimentacoes := p.movimentacoes ++ [novaMovimentacao now d none]
                last_updated := now }
      ∧ dbFind db2 pid = some ret := by
  have h1 : appendMovement db pid now d none
      = .ok (dbUpdate db pid (appendUpd now d none), appendUpd now d none p) := by
    unfold appendMovement
    rw [hd, hfind]
    rfl
  refine ⟨_, _, h1, rfl, rfl, ?_⟩
  exact dbFind_dbUpdate db pid (appendUpd now d none) (fun q => rfl) p hfind

/-- Witness for C2 at a concrete input. -/
theorem appendMovement_no_deadline_witness :
    ∃ db2 ret, appendMovement [exProcess] 1 20 (some "Juntada") none = .ok (db2, ret)
      ∧ ret.status = exProcess.status
      ∧ ret = { exProcess with
                movimentacoes := exProcess.movimentacoes ++ [novaMovimentacao 20 (some "Juntada") none]
                last_updated := 20 }
      ∧ dbFind db2 1 = some ret :=
  appendMovement_no_deadline [exProcess] 1 20 (some "Juntada") exProcess
    (by decide) (by decide)

/-- C7: creating a process with a falsy `numero` or `cliente` is a 400
validation error before any insert; with both truthy, the new process is
appended with status `"Distribuído"` and empty movement and link lists. -/
theorem createProcess_spec (db : List Process) (newId now : Nat) (inp : CreateInput) :
    (truthy inp.numero = false ∨ truthy inp.cliente = false →
       createProcess db newId now inp = .error .badRequest)
    ∧ (truthy inp.numero = true → truthy inp.cliente = true →
       ∃ db2 p, createProcess db newId now inp = .ok (db2, p)
         ∧ p.status = "Distribuído" ∧ p.movimentacoes = [] ∧ p.links = []
         ∧ db2 = db ++ [p]) := by
  constructor
  · intro h
    unfold createProcess
    simp [h]
  · intro h1 h2
    unfold createProcess
    rw [if_neg (by simp [h1, h2])]
    exact ⟨_, _, rfl, rfl, rfl, rfl, rfl⟩

/-- Witness for C7: both the validation branch and the creation branch at
concrete inputs. -/
theorem createProcess_spec_witness :
    (createProcess [exProcess] 7 5 ⟨some "", some "Acme", none, none, none, none, none, none⟩
        = .error .badRequest)
    ∧ ∃ db2 p,
        createProcess [exProcess] 7 5 ⟨some "123", some "Acme", none, none, none, none, none, none⟩
            = .ok (db2, p)
          ∧ p.status = "Distribuído" ∧ p.movimentacoes = [] ∧ p.links = []
          ∧ db2 = [exProcess] ++ [p] :=
  ⟨(createProcess_spec [exProcess] 7 5 _).1 (Or.inl (by decide)),
   (createProcess_spec [exProcess] 7 5 _).2 (by decide) (by decide)⟩

/-- C5 fails on the code: movement ids are `Date.now()`, so two appends to
the same process in the same millisecond (here both at clock value 1000)
store two movements with the same id 1000, violating per-process id
uniqueness. -/
theorem movementId_duplicate :
    ∃ db2 r1 db3 r2,
      appendMovement [exProcess] 1 1000 (some "despacho") none = .ok (db2, r1)
        ∧ appendMovement db2 1 1000 (some "sentença") none = .ok (db3, r2)
        ∧ r2.movimentacoes.map Movement.id = [1000, 1000]
        ∧ ¬ List.Pairwise (fun m1 m2 : Movement => m1.id ≠ m2.id) r2.movimentacoes := by
  refine ⟨_, _, _, _, rfl, rfl, rfl, ?_⟩
  decide

/-- C6: removing a link from an existing process never 404s at the link
level; when the link id is absent the link list is unchanged; and repeating
the same removal returns the same link list as the first removal
(idempotence). -/
theorem removeLink_idempotent (db : List Process) (pid linkId now now2 : Nat)
    (p : Process) (hfind : dbFind db pid = some p) :
    ∃ db2 r1, removeLink db pid linkId now = .ok (db2, r1)
      ∧ (p.links.all (fun l => l.id != linkId) = true → r1.links = p.links)
      ∧ ∃ db3 r2, removeLink db2 pid linkId now2 = .ok (db3, r2)
          ∧ r2.links = r1.links := by
  have h1 : removeLink db pid linkId now
      = .ok (dbUpdate db pid (removeLinkUpd now linkId p.links),
             removeLinkUpd now linkId p.links p) := by
    unfold removeLink
    rw [hfind]
  have hfind2 : dbFind (dbUpdate db pid (removeLinkUpd now linkId p.links)) pid
      = some (removeLinkUpd now linkId p.links p) :=
    dbFind_dbUpdate db pid (removeLinkUpd now linkId p.links) (fun q => rfl) p hfind
  have h2 : removeLink (dbUpdate db pid (removeLinkUpd now linkId p.links)) pid linkId now2
      = .ok (dbUpdate (dbUpdate db pid (removeLinkUpd now linkId p.links)) pid
               (removeLinkUpd now2 linkId (removeLinkUpd now linkId p.links p).links),
             removeLinkUpd now2 linkId (removeLinkUpd now linkId p.links p).links
               (removeLinkUpd now linkId p.links p)) := by
    unfold removeLink
    rw [hfind2]
  refine ⟨_, _, h1, ?_, _, _, h2, ?_⟩
  · intro habs
    have : ∀ l ∈ p.links, (l.id != linkId) = true := List.all_eq_true.mp habs
    simpa [removeLinkUpd] using List.filter_eq_self.mpr this
  · simp [removeLinkUpd, List.filter_filter]

/-- Witness for C6 at a concrete input: link id 9 is absent from the only
link list. -/
theorem removeLink_idempotent_witness :
    ∃ db2 r1,
      removeLink [{ exProcess with links := [⟨5, "https://a", "doc"⟩] }] 1 9 30 = .ok (db2, r1)
        ∧ (({ exProcess with links := [⟨5, "https://a", "doc"⟩] } : Process).links.all
             (fun l => l.id != 9) = true → r1.links = [⟨5, "https://a", "doc"⟩])
        ∧ ∃ db3 r2, removeLink db2 1 9 31 = .ok (db3, r2) ∧ r2.links = r1.links :=
  removeLink_idempotent [{ exProcess with links := [⟨5, "https://a", "doc"⟩] }] 1 9 30 31
    { exProcess with links := [⟨5, "https://a", "doc"⟩] } (by decide)

/-- Writing the request fields into the movement at index `i` and reading
index `i` back gives the movement with exactly the request's
`descricao`/`concluido` values. -/
theorem setMovAt_getElem (d : Option String) (c : Option Bool) :
    ∀ (l : List Movement) (i : Nat),
      (setMovAt l i d c)[i]? = l[i]?.map (fun m => { m with descricao := d, concluido := c })
  | [], _ => by simp [setMovAt]
  | m :: ms, 0 => by simp [setMovAt]
  | m :: ms, i + 1 => by simpa [setMovAt] using setMovAt_getElem d c ms i

/-- C9: `updateMovement` overwrites the targeted movement's `descricao` and
`concluido` with the raw request values; an absent input field (`none`) is
stored as `none` — the key is erased from the persisted movement — rather
than left at its previous value. -/
theorem updateMovement_overwrites (db : List Process) (pid movId now : Nat)
    (d : Option String) (c : Option Bool) (p : Process) (i : Nat) (m : Movement)
    (hfind : dbFind db pid = some p)
    (hidx : p.movimentacoes.findIdx? (fun m => m.id == movId) = some i)
    (hm : p.movimentacoes[i]? = some m) :
    ∃ db2 ret, updateMovement db pid movId now d c = .ok (db2, ret)
      ∧ ret.movimentacoes[i]? = some { m with descricao := d, concluido := c }
      ∧ dbFind db2 pid = some ret := by
  have h1 : updateMovement db pid movId now d c
      = .ok (dbUpdate db pid
               (fun q => { q with movimentacoes := setMovAt p.movimentacoes i d c,
                                  last_updated := now }),
             { p with movimentacoes := setMovAt p.movimentacoes i d c,
                      last_updated := now }) := by
    simp only [updateMovement, hfind, hidx]
  refine ⟨_, _, h1, ?_, ?_⟩
  · show (setMovAt p.movimentacoes i d c)[i]? = _
    rw [setMovAt_getElem, hm]
    rfl
  · exact dbFind_dbUpdate db pid
      (fun q => { q with movimentacoes := setMovAt p.movimentacoes i d c, last_updated := now })
      (fun q => rfl) p hfind

/-- Witness for C9 at a concrete input: the stored movement had
`descricao = some "antiga"` and `concluido = some true`; an update carrying
neither field leaves both keys erased (`none`), not unchanged. -/
theorem updateMovement_overwrites_witness :
    ∃ db2 ret,
      updateMovement
          [{ exProcess with
             movimentacoes := [⟨100, some "antiga", 50, some true, some "2025-01-01"⟩] }]
          1 100 60 none none = .ok (db2, ret)
        ∧ ret.movimentacoes[0]?
            = some ⟨100, none, 50, none, some "2025-01-01"⟩
        ∧ dbFind db2 1 = some ret :=
  updateMovement_overwrites
    [{ exProcess with
       movimentacoes := [⟨100, some "antiga", 50, some true, some "2025-01-01"⟩] }]
    1 100 60 none none
    { exProcess with
      movimentacoes := [⟨100, some "antiga", 50, some true, some "2025-01-01"⟩] }
    0 ⟨100, some "antiga", 50, some true, some "2025-01-01"⟩
    (by decide) (by decide) (by decide)

/-- C4: a row is in the deadline list of the calendar feed exactly when it
comes from a movement, of some process in the database, with a non-null
`prazo_fatal` and `concluido = false`, tagged with the parent process's
`numero` and `cliente`.  In particular no movement with `concluido = true`
(nor one whose `concluido` key was erased) contributes a row. -/
theorem calendarFeed_prazos_mem (db : List Process) (r : PrazoRow) :
    r ∈ (calendarFeed db).2 ↔
      ∃ p ∈ db, ∃ m ∈ p.movimentacoes,
        m.prazo_fatal.isSome = true ∧ m.concluido = some false
          ∧ r = ⟨p.numero, p.cliente, m.prazo_fatal, m.descricao⟩ := by
  unfold calendarFeed
  simp only [List.mem_flatMap, List.mem_map, List.mem_filter, Bool.and_eq_true,
    beq_iff_eq]
  constructor
  · rintro ⟨p, hp, m, ⟨hm, hps, hc⟩, hr⟩
    exact ⟨p, hp, m, hm, hps, hc, hr.symm⟩
  · rintro ⟨p, hp, m, hm, hps, hc, hr⟩
    exact ⟨p, hp, m, ⟨hm, hps, hc⟩, hr.symm⟩

/-- C8 (settings store, modelled from the spec): a read before any write
returns the default record, an empty patch changes nothing, and writing
`logo_url = "x"` then `custom_menu_links = L` yields a record carrying both
(merge, not overwrite). -/
theorem saveSettings_merges (st : Option Settings) (L : List String) :
    getSettings none = { logo_url := "", custom_menu_links := [] }
    ∧ getSettings (saveSettings st ⟨none, none⟩) = getSettings st
    ∧ getSettings (saveSettings (saveSettings st ⟨some "x", none⟩) ⟨none, some L⟩)
        = { logo_url := "x", custom_menu_links := L } := by
  refine ⟨rfl, ?_, rfl⟩
  cases st <;> rfl

/-- C10: the literal tribunal filter `"Todos"` is a sentinel that disables
tribunal filtering: the response is identical to one with no tribunal
filter at all, for every database and any other filter values. -/
theorem listProcesses_todos (db : List Process) (v s : Option String) :
    listProcesses db ⟨some "Todos", v, s⟩ = listProcesses db ⟨none, v, s⟩ := rfl

/-- The row predicate exactly as claim C3 states it: identical to the
handler's WHERE clause except that `vara` is matched as a substring.  Used
only to compare the claim's wording against the code. -/
def claimMatchesC3 (f : QueryFilter) (p : Process) : Bool :=
  (match f.tribunal with
   | none => true
   | some t =>
       if t != "" && t != "Todos" then
         (splitComma t).any (fun s => p.tribunal == some s)
       else true)
  &&
  (match f.vara with
   | none => true
   | some v =>
       if v != "" then
         (match p.vara with
          | none => false
          | some pv => ilikeContains pv v)
       else true)
  &&
  (match f.search with
   | none => true
   | some s => if s != "" then ilikeContains p.numero s || ilikeContains p.cliente s else true)

/-- A process sitting in a vara whose name properly contains "Vara". -/
def varaProcess : Process :=
  { exProcess with vara := some "2a Vara Civel" }

/-- C3 fails as stated: with the filter `vara = "Vara"`, the process whose
vara is `"2a Vara Civel"` matches the claim's substring criterion, yet the
handler's `vara = $n` comparison is exact equality, so `listProcesses`
returns the empty list. -/
theorem listProcesses_vara_counterexample :
    claimMatchesC3 ⟨none, some "Vara", none⟩ varaProcess = true
      ∧ varaProcess ∈ [varaProcess]
      ∧ listProcesses [varaProcess] ⟨none, some "Vara", none⟩ = [] := by
  refine ⟨?_, ?_, ?_⟩ <;> decide

/-- The tribunal conjunct of the WHERE clause, as a proposition. -/
theorem tribunal_cond_iff (ft : Option String) (p : Process) :
    (match ft with
     | none => true
     | some t =>
         if t != "" && t != "Todos" then
           (splitComma t).any (fun s => p.tribunal == some s)
         else true) = true
    ↔ ∀ t, ft = some t → t ≠ "" → t ≠ "Todos" →
        ∃ s ∈ splitComma t, p.tribunal = some s := by
  cases ft with
  | none => simp
  | some t =>
      by_cases h1 : t = ""
      · subst h1; simp
      · by_cases h2 : t = "Todos"
        · subst h2; simp
        · simp [h1, h2, List.any_eq_true]

/-- The vara conjunct of the WHERE clause, as a proposition: exact equality. -/
theorem vara_cond_iff (fv : Option String) (p : Process) :
    (match fv with
     | none => true
     | some v => if v != "" then p.vara == some v else true) = true
    ↔ ∀ v, fv = some v → v ≠ "" → p.vara = some v := by
  cases fv with
  | none => simp
  | some v =>
      by_cases h1 : v = ""
      · subst h1; simp
      · simp [h1]

/-- The search conjunct of the WHERE clause, as a proposition. -/
theorem search_cond_iff (fs : Option String) (p : Process) :
    (match fs with
     | none => true
     | some s =>
         if s != "" then ilikeContains p.numero s || ilikeContains p.cliente s
         else true) = true
    ↔ ∀ s, fs = some s → s ≠ "" →
        (ilikeContains p.numero s = true ∨ ilikeContains p.cliente s = true) := by
  cases fs with
  | none => simp
  | some s =>
      by_cases h1 : s = ""
      · subst h1; simp
      · simp [h1]

/-- The WHERE clause of GET `/api/processes` characterised field by field. -/
theorem rowMatches_iff (f : QueryFilter) (p : Process) :
    rowMatches f p = true ↔
      (∀ t, f.tribunal = some t → t ≠ "" → t ≠ "Todos" →
         ∃ s ∈ splitComma t, p.tribunal = some s)
      ∧ (∀ v, f.vara = some v → v ≠ "" → p.vara = some v)
      ∧ (∀ s, f.search = some s → s ≠ "" →
           (ilikeContains p.numero s = true ∨ ilikeContains p.cliente s = true)) := by
  obtain ⟨ft, fv, fs⟩ := f
  unfold rowMatches
  dsimp only
  rw [Bool.and_eq_true, Bool.and_eq_true, and_assoc]
  exact and_congr (tribunal_cond_iff ft p)
    (and_congr (vara_cond_iff fv p) (search_cond_iff fs p))

/-- C3 (amended): `listProcesses` returns exactly the processes matching the
filter — exact membership of `tribunal` in the comma-split multi-valued
tribunal filter, **exact equality** on `vara` (not a substring match), and
case-insensitive substring match of the search term against `numero` or
`cliente`; inactive filter fields (absent or empty, and the `"Todos"`
tribunal sentinel) impose no constraint — and the result sequence is
ordered by `last_updated` descending (non-increasing). -/
theorem listProcesses_filter_sorted (db : List Process) (f : QueryFilter) :
    List.Sorted luGE (listProcesses db f)
    ∧ ∀ p, p ∈ listProcesses db f ↔
        p ∈ db
        ∧ (∀ t, f.tribunal = some t → t ≠ "" → t ≠ "Todos" →
             ∃ s ∈ splitComma t, p.tribunal = some s)
        ∧ (∀ v, f.vara = some v → v ≠ "" → p.vara = some v)
        ∧ (∀ s, f.search = some s → s ≠ "" →
             (ilikeContains p.numero s = true ∨ ilikeContains p.cliente s = true)) := by
  constructor
  · exact List.sorted_insertionSort luGE _
  · intro p
    rw [listProcesses, List.mem_insertionSort, List.mem_filter, rowMatches_iff]

/-- A process classified under tribunal TJSP. -/
def procTJ : Process :=
  { exProcess with id := 2, tribunal := some "TJSP", last_updated := 30 }

/-- Witness for C3 (amended): a process whose tribunal is one value of a
multi-valued tribunal filter is returned. -/
theorem listProcesses_filter_sorted_witness :
    procTJ ∈ listProcesses [exProcess, procTJ] ⟨some "TJSP,TJRJ", none, none⟩ := by
  refine ((listProcesses_filter_sorted [exProcess, procTJ]
      ⟨some "TJSP,TJRJ", none, none⟩).2 procTJ).mpr ⟨?_, ?_, ?_, ?_⟩
  · decide
  · intro t ht h1 h2
    have h := Option.some.inj ht
    subst h
    exact ⟨"TJSP", by decide, by decide⟩
  · intro v hv h1
    simp at hv
  · intro s hs h1
    simp at hs

end JMD
